import Mathlib

/-!
Verification of the soft-body physics core of `Actor` (formerly `Beam`),
from `source/main/physics/Beam.h` of Rigs of Rods.

The repository snapshot contains only the class declaration header; the
member-function bodies live outside `src/`.  Where a claim depends on such a
missing body, the definition below is modelled from the specification (its
doc comment says so explicitly).  The inline members that are present in the
header (`IsNodeIdValid`, the `SimState` and `ResetRequest` enums, the field
layout) are embedded directly from the source.
-/

namespace RoRActor

/-! ## Node-indexed queries (Beam.h:215, Beam.h:209) -/

/-- Embedded from `Beam.h:215`:
`bool IsNodeIdValid(int id) const { return (id > 0) && (id < ar_num_nodes); }`.
`ar_num_nodes` is the node count, `id` the queried index; both are C `int`,
modelled as `ℤ`. -/
def isNodeIdValid (ar_num_nodes : ℤ) (id : ℤ) : Bool :=
  (id > 0) && (id < ar_num_nodes)

/-- A 3-vector over ℚ, standing in for `Ogre::Vector3`. -/
structure Vec3 where
  x : ℚ
  y : ℚ
  z : ℚ
deriving DecidableEq, Repr

instance : Add Vec3 := ⟨fun a b => ⟨a.x + b.x, a.y + b.y, a.z + b.z⟩⟩

instance : Zero Vec3 := ⟨⟨0, 0, 0⟩⟩

/-- Dot product on `Vec3`. -/
def dot (a b : Vec3) : ℚ := a.x * b.x + a.y * b.y + a.z * b.z

/-- Scalar multiple of a `Vec3`. -/
def smul (c : ℚ) (a : Vec3) : Vec3 := ⟨c * a.x, c * a.y, c * a.z⟩

/-- Enum `SimState` from `Beam.h:47-53`. -/
inductive SimState where
  | LOCAL_SIMULATED   -- simulated (local) actor
  | NETWORKED_OK      -- not simulated (remote) actor
  | LOCAL_SLEEPING    -- sleeping (local) actor
  | INVALID           -- not simulated and not updated via the network
deriving DecidableEq, Repr

/-- Per-node physical state (position and velocity), the part of `node_t`
the claims are about. -/
structure NodeState where
  pos : Vec3
  vel : Vec3
deriving DecidableEq, Repr

/-- The slice of `Actor` state touched by the node-query, network and reset
claims: node array, node count, sim-state tag. -/
structure ActorState where
  ar_nodes : List NodeState
  ar_num_nodes : ℤ
  ar_sim_state : SimState
deriving DecidableEq, Repr

/-- Modelled from the spec: the body of `getNodePosition` (`Beam.h:209`) is
missing from `src/`.  Per §7 of the spec, a node-indexed query with an
out-of-range index is "rejected (bounds-checked), no state mutation;
caller-visible failure, not fatal to the body".  The query consults
`IsNodeIdValid` and returns the node's world position on success and a
caller-visible failure (`none`) otherwise; it returns the actor state
unchanged in every case. -/
def getNodePosition (a : ActorState) (nodeNumber : ℤ) :
    Option Vec3 × ActorState :=
  if isNodeIdValid a.ar_num_nodes nodeNumber then
    ((a.ar_nodes.get? nodeNumber.toNat).map NodeState.pos, a)
  else
    (none, a)

/-! ## Constraint solvers: beams and ropes (Beam.h:414, Beam.h:415, Beam.h:418) -/

/-- Modelled from the spec: the body of `calcBeams` (`Beam.h:414`) is missing
from `src/`.  §4.2: "linear spring-damper on the deviation between current and
rest length".  The spring term opposes the deviation `len - restLen` and the
damping term opposes the relative velocity of the two endpoints along the
beam. -/
def beamForce (k d : ℚ) (len restLen relVel : ℚ) : ℚ :=
  -(k * (len - restLen)) - d * relVel

/-- Modelled from the spec: the bodies of `calcRopes` (`Beam.h:418`) and
`CalcBeamsInterActor` (`Beam.h:415`) are missing from `src/`.  §4.2 Rope:
"the resulting Beam's force law is one-sided — it applies tension only,
producing zero force when the segment is shorter than rest length". -/
def ropeForce (k d : ℚ) (len restLen relVel : ℚ) : ℚ :=
  if restLen < len then beamForce k d len restLen relVel else 0

/-- The per-beam state the break/deform claims are about: current rest length
(mutable, due to plastic deformation) and the broken flag, a slice of
`beam_t` (`ar_beams`, `Beam.h:229`). -/
structure BeamState where
  rest_length : ℚ
  broken : Bool
deriving DecidableEq, Repr

/-- Absolute value on ℚ, written out so it evaluates by kernel reduction. -/
def ratAbs (q : ℚ) : ℚ := if q < 0 then -q else q

/-- Modelled from the spec: the body of `calcBeams` (`Beam.h:414`) is missing
from `src/`.  One per-sub-step update of a beam's state given its current
length `len`, with break threshold `bt` and plastic-deformation threshold
`pt`.  §4.2: "once the deviation exceeds a break threshold, the beam
transitions to broken (removed from active force set)"; "Deviation beyond a
separate (lower) plastic-deformation threshold permanently increases rest
length".  A broken beam is skipped entirely. -/
def beamStep (bt pt : ℚ) (s : BeamState) (len : ℚ) : BeamState :=
  if s.broken then s
  else if bt < ratAbs (len - s.rest_length) then { s with broken := true }
  else if pt < ratAbs (len - s.rest_length) then
    { s with rest_length :=
        s.rest_length +
          (ratAbs (len - s.rest_length) - pt) * (if s.rest_length < len then 1 else -1) }
  else s

/-- The beam's state after a whole lifetime of sub-steps, one observed current
length per sub-step. -/
def beamTrace (bt pt : ℚ) (s : BeamState) (lens : List ℚ) : BeamState :=
  lens.foldl (beamStep bt pt) s

/-- Holds (`true`) when, along the whole trace, the length deviation from the
then-current rest length stays strictly below the break threshold `bt`. -/
def devBelowThreshold (bt pt : ℚ) : BeamState → List ℚ → Bool
  | _, [] => true
  | s, len :: rest =>
      decide (ratAbs (len - s.rest_length) < bt) &&
        devBelowThreshold bt pt (beamStep bt pt s len) rest

/-! ## Reset Controller (Beam.h:94, Beam.h:406-412, Beam.h:100, Beam.h:421) -/

/-- Enum `ResetRequest` from `Beam.h:406-412`. -/
inductive ResetRequest where
  | REQUEST_RESET_NONE
  | REQUEST_RESET_ON_INIT_POS
  | REQUEST_RESET_ON_SPOT
  | REQUEST_RESET_FINAL
deriving DecidableEq, Repr

/-- The slice of `Actor` state the Reset Controller touches: node states, the
spawn pose, the last explicitly saved pose, per-beam broken flags, per-hook
engaged flags, and the pending request (`m_reset_request`, `Beam.h:487`). -/
structure ResetActor where
  nodes : List NodeState
  initial_positions : List Vec3
  saved_positions : List Vec3
  beams_broken : List Bool
  hooks_engaged : List Bool
  m_reset_request : ResetRequest
deriving DecidableEq, Repr

/-- Modelled from the spec: the body of `RequestActorReset` (`Beam.h:94`) is
missing from `src/`.  §4.6: "A reset request is recorded, not applied
immediately" — the call only records the pending request
(`keepPosition = true` requests `OnSpot`, otherwise `OnInit`); no other field
changes. -/
def RequestActorReset (a : ResetActor) (keepPosition : Bool) : ResetActor :=
  { a with m_reset_request :=
      if keepPosition then ResetRequest.REQUEST_RESET_ON_SPOT
      else ResetRequest.REQUEST_RESET_ON_INIT_POS }

/-- Modelled from the spec: one integration sub-step mutates only the node
array (§5: node arrays "are mutated only by that body's integration pass");
it never consults `m_reset_request` (§4.6: requests are applied only at the
tick-start safe boundary).  The numerical node update itself is abstracted as
`f`. -/
def subStep (f : List NodeState → List NodeState) (a : ResetActor) : ResetActor :=
  { a with nodes := f a.nodes }

/-- Modelled from the spec: the body of `SyncReset` (`Beam.h:421`) is missing
from `src/`.  §4.6: "`OnInit` restores the spawn pose; `OnSpot` restores the
last explicitly saved pose at the current location; both also zero velocities
and clear broken/engaged transient state.  Terminal: back to `None` once
applied." -/
def SyncReset (a : ResetActor) : ResetActor :=
  { nodes :=
      (match a.m_reset_request with
        | ResetRequest.REQUEST_RESET_ON_SPOT => a.saved_positions
        | _ => a.initial_positions).map (fun p => { pos := p, vel := 0 }),
    initial_positions := a.initial_positions,
    saved_positions := a.saved_positions,
    beams_broken := a.beams_broken.map (fun _ => false),
    hooks_engaged := a.hooks_engaged.map (fun _ => false),
    m_reset_request := ResetRequest.REQUEST_RESET_NONE }

/-- Modelled from the spec: the body of `HandleResetRequests` (`Beam.h:100`)
is missing from `src/`.  Runs at the tick-start safe boundary and applies the
pending request, if any. -/
def HandleResetRequests (a : ResetActor) : ResetActor :=
  if a.m_reset_request = ResetRequest.REQUEST_RESET_NONE then a else SyncReset a

/-! ## Network Synchronizer: triple buffer (Beam.h:488-493, Beam.h:80) -/

/-- The three-slot incoming-data buffer (`netb1`/`netb2`/`netb3`,
`oob1`/`oob2`/`oob3`, `Beam.h:488-493`), plus the published-slot index
(writer side) and the slot currently held by the reader. -/
structure TripleBuffer (α : Type) where
  netb1 : α
  netb2 : α
  netb3 : α
  published : Fin 3
  reading : Fin 3
deriving DecidableEq, Repr

/-- Content of slot `i`. -/
def TripleBuffer.slot {α : Type} (tb : TripleBuffer α) (i : Fin 3) : α :=
  match i with
  | 0 => tb.netb1
  | 1 => tb.netb2
  | 2 => tb.netb3

/-- Replace the content of slot `i`. -/
def TripleBuffer.setSlot {α : Type} (tb : TripleBuffer α) (i : Fin 3) (s : α) :
    TripleBuffer α :=
  match i with
  | 0 => { tb with netb1 := s }
  | 1 => { tb with netb2 := s }
  | 2 => { tb with netb3 := s }

/-- Modelled from the spec: slot selection of the triple-buffer writer.
§4.7: the writer "selects the slot not currently being read" (also keeping
clear of the currently published slot, so a published-but-not-yet-acquired
snapshot is never clobbered mid-handoff) — with three slots such a slot
always exists. -/
def freeSlot (reading published : Fin 3) : Fin 3 :=
  if 0 ≠ reading ∧ 0 ≠ published then 0
  else if 1 ≠ reading ∧ 1 ≠ published then 1
  else 2

/-- Modelled from the spec: the writer path of `PushNetwork` (`Beam.h:80`,
"fills actor's data buffers and flips them"; body missing from `src/`).
§4.7: the writer "writes the latest decoded snapshot into it, then atomically
publishes its slot index". -/
def TripleBuffer.write {α : Type} (tb : TripleBuffer α) (s : α) : TripleBuffer α :=
  { tb.setSlot (freeSlot tb.reading tb.published) s with
      published := freeSlot tb.reading tb.published }

/-- Modelled from the spec: the reader path (`CalcNetwork`, `Beam.h:81`; body
missing from `src/`).  §4.7: the reader "picks the most-recently-published
complete slot"; it returns that snapshot and now holds that slot. -/
def TripleBuffer.acquire {α : Type} (tb : TripleBuffer α) : α × TripleBuffer α :=
  (tb.slot tb.published, { tb with reading := tb.published })

/-- A sequence of writer publications, oldest first. -/
def TripleBuffer.writeAll {α : Type} (tb : TripleBuffer α) (ss : List α) :
    TripleBuffer α :=
  ss.foldl TripleBuffer.write tb

/-- The slice of `Actor` state the network-snapshot claims are about:
physical state, the expected snapshot size (`m_net_buffer_size`,
`Beam.h:521`, a pure function of node/wheel counts fixed at spawn), and the
incoming triple buffer. -/
structure NetActor where
  phys : ActorState
  m_net_buffer_size : ℕ
  buf : TripleBuffer (List ℤ)
deriving DecidableEq, Repr

/-- Modelled from the spec: the body of `PushNetwork` (`Beam.h:80`) is
missing from `src/`.  §4.7: "A snapshot whose declared size does not match
the expected layout for that body's node/wheel count is rejected and the
body is marked invalid rather than partially applied" — on mismatch nothing
is written and the sim-state becomes `INVALID` ("not simulated and not
updated via the network (e.g. size differs from expected)", `Beam.h:52`);
on match the snapshot is written into the triple buffer. -/
def PushNetwork (a : NetActor) (data : List ℤ) (size : ℕ) : NetActor :=
  if size ≠ a.m_net_buffer_size then
    { a with phys := { a.phys with ar_sim_state := SimState.INVALID } }
  else
    { a with buf := a.buf.write data }

/-! ## Collision resolution query (Beam.h:120-127) -/

/-- The supporting plane of a static collision triangle:
`{ q | dot normal q = offset }`, with the body expected on the side
`dot normal q ≥ offset`. -/
structure Plane where
  normal : Vec3
  offset : ℚ
deriving DecidableEq, Repr

/-- Penetration depth of a point below a plane, measured along the plane
normal: positive exactly when the point penetrates. -/
def penetrationDepth (pl : Plane) (p : Vec3) : ℚ :=
  pl.offset - dot pl.normal p

/-- Modelled from the spec: the body of `calculateCollisionOffset`
(`Beam.h:122`) is missing from `src/`.  Per its header comment it "Returns a
minimal offset by which the actor needs to be moved to resolve any
collisions" and §4.3 calls it a query that returns "the minimal translation
needed to clear all current penetrations ... rather than mutating state
directly".  For a single node `p` against one static triangle plane, the
minimal resolving translation is along the triangle normal, scaled to bring
the node exactly back to the surface; a non-penetrating node needs no
offset.  The query is a pure function of the node position: it mutates no
body state by construction. -/
def calculateCollisionOffset (p : Vec3) (pl : Plane) : Vec3 :=
  if 0 < penetrationDepth pl p then
    smul (penetrationDepth pl p / dot pl.normal pl.normal) pl.normal
  else 0

/-! ## Hook lifecycle and linked actors (Beam.h:106, Beam.h:427-429, Beam.h:423) -/

/-- An inter-actor beam (`ar_inter_beams`, `Beam.h:231`): the two endpoint
actors (by id) and the endpoint node index inside each. -/
structure InterActorBeam where
  actor_a : ℕ
  node_a : ℕ
  actor_b : ℕ
  node_b : ℕ
deriving DecidableEq, Repr

/-- The side registry of inter-actor beams (§3: "Lives in a side registry"). -/
abbrev BeamRegistry := List InterActorBeam

/-- Modelled from the spec: the body of `AddInterActorBeam` (`Beam.h:427`) is
missing from `src/`.  Registers a newly created inter-actor beam. -/
def AddInterActorBeam (reg : BeamRegistry) (b : InterActorBeam) : BeamRegistry :=
  b :: reg

/-- Modelled from the spec: the body of `RemoveInterActorBeam` (`Beam.h:428`)
is missing from `src/`.  Unregisters an inter-actor beam. -/
def RemoveInterActorBeam (reg : BeamRegistry) (b : InterActorBeam) : BeamRegistry :=
  reg.filter (fun x => x ≠ b)

/-- Does beam `bm` reference endpoint `(a, na)` on one side and `(b, nb)` on
the other (in either orientation)? -/
def beamRefers (bm : InterActorBeam) (a na b nb : ℕ) : Bool :=
  (bm.actor_a = a && bm.node_a = na && bm.actor_b = b && bm.node_b = nb) ||
  (bm.actor_a = b && bm.node_a = nb && bm.actor_b = a && bm.node_b = na)

/-- Number of registered beams referencing `(a, na)`–`(b, nb)`. -/
def countBeamsRef (reg : BeamRegistry) (a na b nb : ℕ) : ℕ :=
  reg.countP (fun bm => beamRefers bm a na b nb)

/-- Modelled from the spec: engaging a hook (`ToggleHooks`, `Beam.h:106`;
body missing from `src/`).  §4.2 Hook: "on engagement a new inter-body Beam
is registered via the Linkage Manager". -/
def engageHook (reg : BeamRegistry) (a na b nb : ℕ) : BeamRegistry :=
  AddInterActorBeam reg ⟨a, na, b, nb⟩

/-- Modelled from the spec: disengaging a hook (`ToggleHooks`, `Beam.h:106`;
body missing from `src/`).  §4.2 Hook: "on disengagement that Beam is removed
and the two bodies' linked-set is recomputed". -/
def disengageHook (reg : BeamRegistry) (a na b nb : ℕ) : BeamRegistry :=
  RemoveInterActorBeam reg ⟨a, na, b, nb⟩

/-- All actor ids mentioned by the registry. -/
def regActors (reg : BeamRegistry) : List ℕ :=
  reg.foldr (fun bm acc => bm.actor_a :: bm.actor_b :: acc) []

/-- Are `x` and `y` directly connected by some registered beam? -/
def directlyLinked (reg : BeamRegistry) (x y : ℕ) : Bool :=
  reg.any (fun bm =>
    (bm.actor_a = x && bm.actor_b = y) || (bm.actor_a = y && bm.actor_b = x))

/-- One expansion step of the linked-set computation: add every actor
directly connected to the current set. -/
def expandOnce (reg : BeamRegistry) (s : List ℕ) : List ℕ :=
  s ++ (regActors reg).filter (fun y => s.any (fun x => directlyLinked reg x y))

/-- Iterated expansion (fuel-bounded transitive closure). -/
def expandRepeat (reg : BeamRegistry) : ℕ → List ℕ → List ℕ
  | 0, s => s
  | n + 1, s => expandRepeat reg n (expandOnce reg s)

/-- Modelled from the spec: the body of `DetermineLinkedActors` (`Beam.h:423`)
is missing from `src/`.  §4.5: the Linkage Manager maintains "a derived
transitive closure of linked bodies (via Hooks/Ropes)"; `m_linked_actors`
(`Beam.h:470`) holds the other actors connected to `a`, so `a` itself is
excluded.  One expansion per registered beam reaches the closure. -/
def linkedActors (reg : BeamRegistry) (a : ℕ) : List ℕ :=
  (expandRepeat reg (reg.length + 1) [a]).filter (fun x => x ≠ a)

/-! ## Mass Model (Beam.h:424, Beam.h:538-541) -/

/-- The load-distribution state: one `(fixed, weight)` pair per node, where
`fixed` marks a node already clamped to the mass floor and `weight` is its
declared load weight. -/
abbrev MassDistState := List (Bool × ℚ)

/-- Number of nodes already clamped to the floor. -/
def numFixed (xs : MassDistState) : ℕ :=
  (xs.filter (fun p => p.1)).length

/-- Load weights of the nodes not yet clamped. -/
def activeWeights (xs : MassDistState) : List ℚ :=
  (xs.filter (fun p => !p.1)).map Prod.snd

/-- Mass still to be distributed once the clamped nodes have taken the floor
value each. -/
def remOf (total floor : ℚ) (xs : MassDistState) : ℚ :=
  total - (numFixed xs : ℚ) * floor

/-- Proportional share of remaining mass `rem` for a node of load weight `w`,
where `W` is the total active weight and `u` the number of active nodes.
§4.1: "Distribution is proportional to each node's declared load-weight
share"; "Fails silently to a uniform distribution if no load weights are
declared". -/
def shareOf (rem W : ℚ) (u : ℕ) (w : ℚ) : ℚ :=
  if W = 0 then rem / (u : ℚ) else rem * w / W

/-- The proportional share of the remaining mass for the node described by
pair `p`, in distribution state `xs`. -/
def shareIn (total floor : ℚ) (xs : MassDistState) (p : Bool × ℚ) : ℚ :=
  shareOf (remOf total floor xs) (activeWeights xs).sum (activeWeights xs).length p.2

/-- Does every not-yet-clamped node's proportional share meet the floor? -/
def allSharesOk (total floor : ℚ) (xs : MassDistState) : Bool :=
  (activeWeights xs).all (fun w => decide (floor ≤ shareIn total floor xs (false, w)))

/-- The resulting per-node masses once every active share meets the floor:
clamped nodes take the floor, the rest their proportional share. -/
def finalShares (total floor : ℚ) (xs : MassDistState) : List ℚ :=
  xs.map (fun p => if p.1 then floor else shareIn total floor xs p)

/-- Clamp every active node whose share falls below the floor. -/
def clampLow (total floor : ℚ) (xs : MassDistState) : MassDistState :=
  xs.map (fun p => (p.1 || decide (shareIn total floor xs p < floor), p.2))

/-- Modelled from the spec: the body of `RecalculateNodeMasses` (`Beam.h:424`)
is missing from `src/`.  §4.1: "any node whose computed share falls below the
floor is clamped up and the remainder is re-distributed among the other
nodes" — iterated to a fixed point: if every active node's proportional share
of the remaining mass already meets the floor, those shares (and the floor
for clamped nodes) are the result; otherwise the offending nodes are clamped
to the floor and the rest is re-distributed.  `fuel` bounds the number of
clamping rounds; one round per node suffices. -/
def fillMasses (total floor : ℚ) : ℕ → MassDistState → List ℚ
  | 0, xs =>
      if allSharesOk total floor xs then finalShares total floor xs
      else xs.map (fun _ => floor)
  | f + 1, xs =>
      if allSharesOk total floor xs then finalShares total floor xs
      else fillMasses total floor f (clampLow total floor xs)

/-- Modelled from the spec: `RecalculateNodeMasses` (`Beam.h:424`; body
missing from `src/`).  Distributes the declared total mass `total` over the
nodes with declared load weights `loadWeights`, never letting a node fall
below the mass floor `floor` (`m_minimass`, `Beam.h:538`). -/
def RecalculateNodeMasses (loadWeights : List ℚ) (total floor : ℚ) : List ℚ :=
  fillMasses total floor loadWeights.length (loadWeights.map (fun w => (false, w)))

/-! ## Theorems -/

/-- C10: for every actor and every integer id, `IsNodeIdValid id` returns
`true` iff `id` is strictly greater than 0 and strictly less than the node
count; in particular node index 0, although it addresses a real node in
`ar_nodes`, is reported as invalid by this public predicate. -/
theorem isNodeIdValid_iff (n id : ℤ) :
    (isNodeIdValid n id = true ↔ (0 < id ∧ id < n)) ∧ isNodeIdValid n 0 = false := by
  refine ⟨?_, ?_⟩ <;> simp [isNodeIdValid]

/-- Witness for `isNodeIdValid_iff` at node count 5, index 3. -/
theorem isNodeIdValid_iff_witness :
    (isNodeIdValid 5 3 = true ↔ ((0 : ℤ) < 3 ∧ (3 : ℤ) < 5)) ∧
    isNodeIdValid 5 0 = false :=
  isNodeIdValid_iff 5 3

/-- C9: a node-indexed query called with an index outside the valid range is
rejected via the bounds check: it reports a caller-visible failure (`none`),
mutates no actor state, and in particular does not invalidate the body (the
returned state — sim-state tag included — is exactly the input state). -/
theorem getNodePosition_out_of_range (a : ActorState) (id : ℤ)
    (h : id < 0 ∨ a.ar_num_nodes ≤ id) :
    getNodePosition a id = (none, a) := by
  have hv : isNodeIdValid a.ar_num_nodes id = false := by
    simp only [isNodeIdValid, Bool.and_eq_false_iff, decide_eq_false_iff_not, not_lt]
    omega
  simp [getNodePosition, hv]

/-- Witness for `getNodePosition_out_of_range`: an actor with no nodes,
queried at index 5. -/
theorem getNodePosition_out_of_range_witness :
    getNodePosition ⟨[], 0, SimState.LOCAL_SIMULATED⟩ 5 =
      (none, ⟨[], 0, SimState.LOCAL_SIMULATED⟩) :=
  getNodePosition_out_of_range ⟨[], 0, SimState.LOCAL_SIMULATED⟩ 5 (Or.inr (by decide))

/-- C2: a rope (tension-only inter-actor beam) applies zero force to its
endpoint nodes whenever its current length is at most its rest length. -/
theorem ropeForce_zero_when_slack (k d len restLen relVel : ℚ)
    (h : len ≤ restLen) :
    ropeForce k d len restLen relVel = 0 := by
  unfold ropeForce
  rw [if_neg (not_lt.mpr h)]

/-- Witness for `ropeForce_zero_when_slack`: a slack rope (length 1, rest
length 2) under nonzero stiffness, damping and relative velocity. -/
theorem ropeForce_zero_when_slack_witness :
    ropeForce 100 5 1 2 3 = 0 :=
  ropeForce_zero_when_slack 100 5 1 2 3 (by norm_num)

/-- C5: an incoming network snapshot whose declared size does not match the
expected layout for the body's node/wheel counts is rejected: the body is
marked `INVALID` (not simulated and not updated), nothing is written into the
triple buffer, and the body's node state is unchanged bit-for-bit. -/
theorem pushNetwork_size_mismatch (a : NetActor) (data : List ℤ) (size : ℕ)
    (h : size ≠ a.m_net_buffer_size) :
    (PushNetwork a data size).phys.ar_sim_state = SimState.INVALID ∧
    (PushNetwork a data size).phys.ar_nodes = a.phys.ar_nodes ∧
    (PushNetwork a data size).buf = a.buf := by
  unfold PushNetwork
  rw [if_pos h]
  exact ⟨rfl, rfl, rfl⟩

/-- Witness for `pushNetwork_size_mismatch`: a body expecting snapshots of
size 4, handed a snapshot declaring size 3. -/
theorem pushNetwork_size_mismatch_witness :
    (PushNetwork ⟨⟨[], 0, SimState.NETWORKED_OK⟩, 4, ⟨[], [], [], 0, 0⟩⟩
        [1, 2, 3] 3).phys.ar_sim_state = SimState.INVALID ∧
    (PushNetwork ⟨⟨[], 0, SimState.NETWORKED_OK⟩, 4, ⟨[], [], [], 0, 0⟩⟩
        [1, 2, 3] 3).phys.ar_nodes = [] ∧
    (PushNetwork ⟨⟨[], 0, SimState.NETWORKED_OK⟩, 4, ⟨[], [], [], 0, 0⟩⟩
        [1, 2, 3] 3).buf = ⟨[], [], [], 0, 0⟩ :=
  pushNetwork_size_mismatch ⟨⟨[], 0, SimState.NETWORKED_OK⟩, 4, ⟨[], [], [], 0, 0⟩⟩
    [1, 2, 3] 3 (by decide)

/-- C4: a reset request recorded during an active integration sub-step causes
no node change by itself, and integration sub-steps (which never consult the
request) evolve the nodes exactly as without the request; when the request is
applied at the tick-start safe boundary, every node velocity is exactly zero,
every broken-beam flag and every hook-engaged flag is cleared, and the
controller returns to `None`. -/
theorem reset_request_deferred_then_zeroed (a : ResetActor) (k : Bool)
    (f : List NodeState → List NodeState) :
    (RequestActorReset a k).nodes = a.nodes ∧
    (subStep f (RequestActorReset a k)).nodes = (subStep f a).nodes ∧
    ((HandleResetRequests (RequestActorReset a k)).nodes.all
      (fun n => decide (n.vel = 0))) = true ∧
    ((HandleResetRequests (RequestActorReset a k)).beams_broken.all
      (fun b => !b)) = true ∧
    ((HandleResetRequests (RequestActorReset a k)).hooks_engaged.all
      (fun e => !e)) = true ∧
    (HandleResetRequests (RequestActorReset a k)).m_reset_request =
      ResetRequest.REQUEST_RESET_NONE := by
  refine ⟨rfl, rfl, ?_, ?_, ?_, ?_⟩ <;>
    cases k <;>
      simp [HandleResetRequests, RequestActorReset, SyncReset, List.all_eq_true]

/-- Helper: a single beam sub-step never clears the broken flag. -/
theorem beamStep_broken_mono (bt pt : ℚ) (s : BeamState) (len : ℚ)
    (h : s.broken = true) : (beamStep bt pt s len).broken = true := by
  unfold beamStep
  rw [if_pos h]
  exact h

/-- Helper: a sub-step whose deviation stays below the break threshold leaves
an unbroken beam unbroken. -/
theorem beamStep_broken_stays_false (bt pt : ℚ) (s : BeamState) (len : ℚ)
    (hb : s.broken = false) (hdev : ratAbs (len - s.rest_length) < bt) :
    (beamStep bt pt s len).broken = false := by
  unfold beamStep
  rw [if_neg (by simp [hb]), if_neg (not_lt.mpr (le_of_lt hdev))]
  split <;> exact hb

/-- C3: along any lifetime trace of per-sub-step current lengths, (a) once a
beam's broken flag is set it is never cleared by any subsequent step (broken
beams never re-heal), and (b) if the length deviation from the then-current
rest length stays below the break threshold for the whole trace, the broken
flag is never set. -/
theorem beam_break_never_heals_and_sound (bt pt : ℚ) (s : BeamState)
    (lens : List ℚ) :
    (s.broken = true → (beamTrace bt pt s lens).broken = true) ∧
    (s.broken = false → devBelowThreshold bt pt s lens = true →
      (beamTrace bt pt s lens).broken = false) := by
  induction lens generalizing s with
  | nil => exact ⟨fun h => h, fun h _ => h⟩
  | cons len rest ih =>
    constructor
    · intro hb
      exact (ih (beamStep bt pt s len)).1 (beamStep_broken_mono bt pt s len hb)
    · intro hb hdev
      rw [devBelowThreshold, Bool.and_eq_true, decide_eq_true_eq] at hdev
      exact (ih (beamStep bt pt s len)).2
        (beamStep_broken_stays_false bt pt s len hb hdev.1) hdev.2

/-- Witness for `beam_break_never_heals_and_sound`: break threshold 10,
plastic threshold 2, an unbroken beam of rest length 1 observed at lengths
3 then 2 stays unbroken; a broken one stays broken. -/
theorem beam_break_never_heals_and_sound_witness :
    (beamTrace 10 2 ⟨1, false⟩ [3, 2]).broken = false ∧
    (beamTrace 10 2 ⟨1, true⟩ [3, 2]).broken = true :=
  ⟨(beam_break_never_heals_and_sound 10 2 ⟨1, false⟩ [3, 2]).2
      rfl (by norm_num [devBelowThreshold, beamStep, ratAbs]),
   (beam_break_never_heals_and_sound 10 2 ⟨1, true⟩ [3, 2]).1 rfl⟩

/-- Helper: componentwise characterization of `Vec3` addition. -/
theorem vec3_add_def (a b : Vec3) : a + b = ⟨a.x + b.x, a.y + b.y, a.z + b.z⟩ := rfl

/-- Helper: the dot product distributes over addition on the right. -/
theorem dot_add_right (a b c : Vec3) : dot a (b + c) = dot a b + dot a c := by
  rw [vec3_add_def]
  unfold dot
  ring

/-- Helper: the dot product pulls scalar multiples out on the right. -/
theorem dot_smul_right (a : Vec3) (c : ℚ) (b : Vec3) :
    dot a (smul c b) = c * dot a b := by
  unfold dot smul
  ring

/-- Helper: the dot square of a nonzero rational 3-vector is positive. -/
theorem dot_self_pos (v : Vec3) (h : v ≠ 0) : 0 < dot v v := by
  rcases v with ⟨x, y, z⟩
  have hne : x ≠ 0 ∨ y ≠ 0 ∨ z ≠ 0 := by
    by_contra hc
    push_neg at hc
    exact h (by simp only [hc.1, hc.2.1, hc.2.2]; rfl)
  unfold dot
  rcases hne with hx | hy | hz
  · nlinarith [mul_self_pos.mpr hx, mul_self_nonneg y, mul_self_nonneg z]
  · nlinarith [mul_self_pos.mpr hy, mul_self_nonneg x, mul_self_nonneg z]
  · nlinarith [mul_self_pos.mpr hz, mul_self_nonneg x, mul_self_nonneg y]

/-- C8: for a single node at `p` penetrating a static triangle (supporting
plane `pl`) by depth `d > 0` along the triangle normal, the minimal resolving
offset returned by `calculateCollisionOffset` has component at least `d`
along the normal, and applying it as a translation resolves the penetration
(the translated node no longer has positive penetration depth).  The query is
a pure function of the node position — it mutates no body state by
construction. -/
theorem collisionOffset_resolves (p : Vec3) (pl : Plane)
    (hn : pl.normal ≠ 0) (hd : 0 < penetrationDepth pl p) :
    penetrationDepth pl p ≤ dot pl.normal (calculateCollisionOffset p pl) ∧
    penetrationDepth pl (p + calculateCollisionOffset p pl) ≤ 0 := by
  have hnn : (0 : ℚ) < dot pl.normal pl.normal := dot_self_pos pl.normal hn
  have hoff : dot pl.normal (calculateCollisionOffset p pl) = penetrationDepth pl p := by
    unfold calculateCollisionOffset
    rw [if_pos hd, dot_smul_right, div_mul_cancel₀ _ (ne_of_gt hnn)]
  constructor
  · exact le_of_eq hoff.symm
  · unfold penetrationDepth at hoff ⊢
    rw [dot_add_right, hoff]
    linarith

/-- Witness for `collisionOffset_resolves`: the origin node penetrating the
plane `y = 2` (normal `(0,1,0)`, body expected above) by depth 2. -/
theorem collisionOffset_resolves_witness :
    penetrationDepth ⟨⟨0, 1, 0⟩, 2⟩ ⟨0, 0, 0⟩ ≤
      dot (⟨0, 1, 0⟩ : Vec3) (calculateCollisionOffset ⟨0, 0, 0⟩ ⟨⟨0, 1, 0⟩, 2⟩) ∧
    penetrationDepth ⟨⟨0, 1, 0⟩, 2⟩
      ((⟨0, 0, 0⟩ : Vec3) + calculateCollisionOffset ⟨0, 0, 0⟩ ⟨⟨0, 1, 0⟩, 2⟩) ≤ 0 :=
  collisionOffset_resolves ⟨0, 0, 0⟩ ⟨⟨0, 1, 0⟩, 2⟩ (by decide)
    (by norm_num [penetrationDepth, dot])

/-- Helper: the writer's slot choice never equals the reader's slot nor the
currently published slot. -/
theorem freeSlot_ne (r p : Fin 3) : freeSlot r p ≠ r ∧ freeSlot r p ≠ p := by
  revert r p
  decide

/-- Helper: reading back a slot just written. -/
theorem slot_setSlot_self {α : Type} (tb : TripleBuffer α) (i : Fin 3) (s : α) :
    (tb.setSlot i s).slot i = s := by
  fin_cases i <;> rfl

/-- Helper: writing one slot leaves the others untouched. -/
theorem slot_setSlot_other {α : Type} (tb : TripleBuffer α) (i j : Fin 3) (s : α)
    (h : i ≠ j) : (tb.setSlot j s).slot i = tb.slot i := by
  fin_cases i <;> fin_cases j <;> first | rfl | exact absurd rfl h

/-- Helper: writing a slot does not move the reader. -/
theorem setSlot_reading {α : Type} (tb : TripleBuffer α) (i : Fin 3) (s : α) :
    (tb.setSlot i s).reading = tb.reading := by
  fin_cases i <;> rfl

/-- Helper: slot contents do not depend on the published index. -/
theorem slot_published_irrel {α : Type} (x : TripleBuffer α) (j i : Fin 3) :
    ({ x with published := j }).slot i = x.slot i := by
  fin_cases i <;> rfl

/-- Helper: a writer publication does not move the reader. -/
theorem write_reading {α : Type} (tb : TripleBuffer α) (s : α) :
    (tb.write s).reading = tb.reading :=
  setSlot_reading tb (freeSlot tb.reading tb.published) s

/-- Helper: after a publication, the published slot holds exactly the
published snapshot. -/
theorem write_slot_published {α : Type} (tb : TripleBuffer α) (s : α) :
    (tb.write s).slot (tb.write s).published = s := by
  show ({ tb.setSlot (freeSlot tb.reading tb.published) s with
      published := freeSlot tb.reading tb.published }).slot
      (freeSlot tb.reading tb.published) = s
  rw [slot_published_irrel]
  exact slot_setSlot_self tb _ s

/-- Helper: a concurrent publication never touches the slot the reader
holds. -/
theorem write_slot_reading {α : Type} (tb : TripleBuffer α) (s : α) :
    (tb.write s).slot tb.reading = tb.slot tb.reading := by
  show ({ tb.setSlot (freeSlot tb.reading tb.published) s with
      published := freeSlot tb.reading tb.published }).slot tb.reading
      = tb.slot tb.reading
  rw [slot_published_irrel]
  exact slot_setSlot_other tb tb.reading _ s (freeSlot_ne tb.reading tb.published).1.symm

/-- Helper: a whole sequence of publications does not move the reader. -/
theorem writeAll_reading {α : Type} (ss : List α) :
    ∀ tb : TripleBuffer α, (tb.writeAll ss).reading = tb.reading := by
  induction ss with
  | nil => intro tb; rfl
  | cons s rest ih =>
      intro tb
      show ((tb.write s).writeAll rest).reading = tb.reading
      rw [ih (tb.write s), write_reading]

/-- Helper: a whole sequence of publications never touches the slot the
reader holds. -/
theorem writeAll_slot_reading {α : Type} (ss : List α) :
    ∀ tb : TripleBuffer α, (tb.writeAll ss).slot tb.reading = tb.slot tb.reading := by
  induction ss with
  | nil => intro tb; rfl
  | cons s rest ih =>
      intro tb
      calc ((tb.write s).writeAll rest).slot tb.reading
          = ((tb.write s).writeAll rest).slot (tb.write s).reading := by
            rw [write_reading]
        _ = (tb.write s).slot (tb.write s).reading := ih (tb.write s)
        _ = (tb.write s).slot tb.reading := by rw [write_reading]
        _ = tb.slot tb.reading := write_slot_reading tb s

/-- C6: after any nonempty sequence of writer publications followed by one
reader acquisition, the reader obtains exactly the most recent published
snapshot — each publication is atomic (the full snapshot is written into a
free slot before the slot index is published), the reader is never moved by
concurrent publications, and the slot the reader holds is never written to,
so a partially written snapshot is never observed. -/
theorem tripleBuffer_reader_gets_latest {α : Type} (tb : TripleBuffer α)
    (ss : List α) (h : ss ≠ []) :
    ss.getLast? = some ((tb.writeAll ss).acquire).1 ∧
    (tb.writeAll ss).reading = tb.reading ∧
    (tb.writeAll ss).slot tb.reading = tb.slot tb.reading := by
  refine ⟨?_, writeAll_reading ss tb, writeAll_slot_reading ss tb⟩
  rcases List.eq_nil_or_concat ss with rfl | ⟨L, b, rfl⟩
  · exact absurd rfl h
  · rw [List.concat_eq_append, List.getLast?_concat]
    have hw : tb.writeAll (L ++ [b]) = (tb.writeAll L).write b :=
      List.foldl_concat TripleBuffer.write tb b L
    rw [hw]
    exact congrArg some (write_slot_published (tb.writeAll L) b).symm

/-- Witness for `tripleBuffer_reader_gets_latest`: three publications (10,
20, 30) into an initially zeroed buffer; the reader then obtains 30. -/
theorem tripleBuffer_reader_gets_latest_witness :
    ([10, 20, 30] : List ℕ).getLast? =
      some (((⟨0, 0, 0, 0, 0⟩ : TripleBuffer ℕ).writeAll [10, 20, 30]).acquire).1 ∧
    ((⟨0, 0, 0, 0, 0⟩ : TripleBuffer ℕ).writeAll [10, 20, 30]).reading = 0 ∧
    ((⟨0, 0, 0, 0, 0⟩ : TripleBuffer ℕ).writeAll [10, 20, 30]).slot 0 =
      (⟨0, 0, 0, 0, 0⟩ : TripleBuffer ℕ).slot 0 :=
  tripleBuffer_reader_gets_latest ⟨0, 0, 0, 0, 0⟩ [10, 20, 30] (by decide)

/-- C7: engaging a Hook between node 3 of body `A` and node 7 of body `B`
creates exactly one inter-body beam referencing `(A,3)`–`(B,7)` in the
registry, and each body then appears in the other's linked-actor set;
disengaging that Hook removes the beam, after which neither body's
linked-actor set contains the other. -/
theorem hook_engage_creates_disengage_removes (A B : ℕ) (hAB : A ≠ B) :
    countBeamsRef (engageHook [] A 3 B 7) A 3 B 7 = 1 ∧
    B ∈ linkedActors (engageHook [] A 3 B 7) A ∧
    A ∈ linkedActors (engageHook [] A 3 B 7) B ∧
    countBeamsRef (disengageHook (engageHook [] A 3 B 7) A 3 B 7) A 3 B 7 = 0 ∧
    B ∉ linkedActors (disengageHook (engageHook [] A 3 B 7) A 3 B 7) A ∧
    A ∉ linkedActors (disengageHook (engageHook [] A 3 B 7) A 3 B 7) B := by
  have hBA : B ≠ A := hAB.symm
  refine ⟨?_, ?_, ?_, ?_, ?_, ?_⟩ <;>
    simp [engageHook, disengageHook, AddInterActorBeam, RemoveInterActorBeam,
      countBeamsRef, beamRefers, linkedActors, expandRepeat, expandOnce,
      regActors, directlyLinked, List.countP_cons, List.filter_cons, hAB, hBA]

/-- Witness for `hook_engage_creates_disengage_removes`: bodies 0 and 1. -/
theorem hook_engage_creates_disengage_removes_witness :
    countBeamsRef (engageHook [] 0 3 1 7) 0 3 1 7 = 1 ∧
    1 ∈ linkedActors (engageHook [] 0 3 1 7) 0 ∧
    0 ∈ linkedActors (engageHook [] 0 3 1 7) 1 ∧
    countBeamsRef (disengageHook (engageHook [] 0 3 1 7) 0 3 1 7) 0 3 1 7 = 0 ∧
    1 ∉ linkedActors (disengageHook (engageHook [] 0 3 1 7) 0 3 1 7) 0 ∧
    0 ∉ linkedActors (disengageHook (engageHook [] 0 3 1 7) 0 3 1 7) 1 :=
  hook_engage_creates_disengage_removes 0 1 (by decide)

/-- Helper: clamped and active nodes partition the node set. -/
theorem numFixed_add_activeLen (xs : MassDistState) :
    numFixed xs + (activeWeights xs).length = xs.length := by
  induction xs with
  | nil => rfl
  | cons p rest ih =>
      cases hp : p.1 <;>
        simp [numFixed, activeWeights, List.filter_cons, hp] at ih ⊢ <;>
        omega

/-- Helper: a sum over all nodes splits into the clamped part and the active
part. -/
theorem sum_map_split (xs : MassDistState) (g : Bool × ℚ → ℚ) :
    (xs.map g).sum =
      ((xs.filter (fun p => p.1)).map g).sum +
        ((xs.filter (fun p => !p.1)).map g).sum := by
  induction xs with
  | nil => simp
  | cons p rest ih =>
      cases hp : p.1 <;>
        simp [List.filter_cons, hp, ih] <;>
        ring

/-- Helper: proportional (or uniform-fallback) shares of the remaining mass
over a nonempty active list sum to exactly the remaining mass. -/
theorem sum_shares (act : List ℚ) (rem : ℚ) (h : 1 ≤ act.length) :
    (act.map (shareOf rem act.sum act.length)).sum = rem := by
  have hlen : ((act.length : ℚ)) ≠ 0 := by
    have : 0 < act.length := h
    positivity
  by_cases hW : act.sum = 0
  · have hmap : act.map (shareOf rem act.sum act.length)
        = List.replicate act.length (rem / (act.length : ℚ)) := by
      rw [List.map_congr_left (g := fun _ => rem / (act.length : ℚ))
        (fun w _ => by unfold shareOf; rw [if_pos hW])]
      exact List.map_const' act _
    rw [hmap, List.sum_replicate, nsmul_eq_mul, ← mul_div_assoc,
      mul_comm, mul_div_assoc, div_self hlen, mul_one]
  · have hmap : act.map (shareOf rem act.sum act.length)
        = act.map (fun w => (rem / act.sum) * w) := by
      refine List.map_congr_left (fun w _ => ?_)
      unfold shareOf
      rw [if_neg hW]
      ring
    rw [hmap]
    have : (act.map (fun w => (rem / act.sum) * w)).sum
        = (rem / act.sum) * (act.map (fun w => w)).sum :=
      List.sum_map_mul_left act (fun w => w) (rem / act.sum)
    rw [this, show act.map (fun w => w) = act from List.map_id act]
    exact div_mul_cancel₀ rem hW

/-- Helper: a strictly smaller count for a strictly stronger predicate, given
one element separating the two. -/
theorem countP_lt_of_sep {α : Type} (l : List α) (p q : α → Bool)
    (himp : ∀ a ∈ l, p a = true → q a = true) (a₀ : α) (ha : a₀ ∈ l)
    (hq : q a₀ = true) (hp : p a₀ = false) :
    l.countP p < l.countP q := by
  induction l with
  | nil => cases ha
  | cons x rest ih =>
      rw [List.countP_cons, List.countP_cons]
      rcases List.mem_cons.mp ha with rfl | ha'
      · have hle : rest.countP p ≤ rest.countP q :=
          List.countP_mono_left (fun a hm hpa => himp a (List.mem_cons_of_mem _ hm) hpa)
        rw [hp, hq]
        simp only [Bool.false_eq_true, if_false, if_true]
        omega
      · have hlt := ih (fun a hm hpa => himp a (List.mem_cons_of_mem _ hm) hpa) ha'
        have hx : (if p x = true then 1 else 0) ≤ (if q x = true then 1 else 0) := by
          by_cases hpx : p x = true
          · rw [if_pos hpx, if_pos (himp x (List.mem_cons_self _ _) hpx)]
          · rw [if_neg hpx]
            split <;> omega
        omega

/-- Helper: a nonempty sum of strictly bounded terms is strictly below
count times the bound. -/
theorem sum_map_lt_length_mul (l : List ℚ) (f : ℚ → ℚ) (b : ℚ)
    (h : ∀ w ∈ l, f w < b) (hne : l ≠ []) :
    (l.map f).sum < (l.length : ℚ) * b := by
  induction l with
  | nil => exact absurd rfl hne
  | cons w rest ih =>
      rcases eq_or_ne rest [] with rfl | hr
      · simpa using h w (List.mem_cons_self _ _)
      · have h1 := ih (fun x hx => h x (List.mem_cons_of_mem _ hx)) hr
        have h2 := h w (List.mem_cons_self _ _)
        simp only [List.map_cons, List.sum_cons, List.length_cons]
        push_cast
        linarith

/-- Helper: the number of active nodes as a predicate count. -/
theorem activeLen_countP (xs : MassDistState) :
    (activeWeights xs).length = xs.countP (fun p => !p.1) := by
  unfold activeWeights
  rw [List.length_map, List.countP_eq_length_filter]

/-- Helper: membership shape of the active-weight list. -/
theorem mem_activeWeights {xs : MassDistState} {w : ℚ} :
    w ∈ activeWeights xs ↔ ∃ p ∈ xs, p.1 = false ∧ p.2 = w := by
  unfold activeWeights
  constructor
  · intro hw
    rcases List.mem_map.mp hw with ⟨p, hp, rfl⟩
    rcases List.mem_filter.mp hp with ⟨hmem, hact⟩
    exact ⟨p, hmem, by simpa using hact, rfl⟩
  · rintro ⟨p, hmem, hfalse, rfl⟩
    exact List.mem_map.mpr ⟨p, List.mem_filter.mpr ⟨hmem, by simp [hfalse]⟩, rfl⟩

/-- Helper: clamping preserves the node count. -/
theorem clampLow_length (total floor : ℚ) (xs : MassDistState) :
    (clampLow total floor xs).length = xs.length :=
  List.length_map _ _

/-- Helper: the active count after one clamping round, as a predicate count
on the original state. -/
theorem clampLow_activeLen (total floor : ℚ) (xs : MassDistState) :
    (activeWeights (clampLow total floor xs)).length =
      xs.countP (fun p => !p.1 && !(decide (shareIn total floor xs p < floor))) := by
  unfold clampLow activeWeights
  rw [List.filter_map, List.length_map, List.length_map,
    List.countP_eq_length_filter]
  congr 1
  refine List.filter_congr (fun p _ => ?_)
  show (!(p.1 || decide (shareIn total floor xs p < floor)))
      = (!p.1 && !(decide (shareIn total floor xs p < floor)))
  rw [Bool.not_or]

/-- Helper: in a state where the remaining mass still covers the active
nodes' floors, some active node's proportional share meets the floor — so a
clamping round never clamps every active node. -/
theorem exists_share_ge (total floor : ℚ) (xs : MassDistState)
    (htot : (xs.length : ℚ) * floor ≤ total)
    (hu : 1 ≤ (activeWeights xs).length) :
    ∃ p ∈ xs, p.1 = false ∧ floor ≤ shareIn total floor xs p := by
  by_contra hc
  push_neg at hc
  have hall : ∀ w ∈ activeWeights xs,
      shareOf (remOf total floor xs) (activeWeights xs).sum
        (activeWeights xs).length w < floor := by
    intro w hw
    rcases mem_activeWeights.mp hw with ⟨p, hp, hpf, rfl⟩
    simpa [shareIn] using hc p hp hpf
  have hne : activeWeights xs ≠ [] := by
    intro h0
    rw [h0] at hu
    simp at hu
  have hlt := sum_map_lt_length_mul (activeWeights xs) _ floor hall hne
  have hsum := sum_shares (activeWeights xs) (remOf total floor xs) hu
  have hk := numFixed_add_activeLen xs
  have hrem : (((activeWeights xs).length : ℚ)) * floor ≤ remOf total floor xs := by
    unfold remOf
    have h2 : (((numFixed xs + (activeWeights xs).length : ℕ)) : ℚ) * floor ≤ total := by
      rw [hk]
      exact htot
    push_cast at h2
    rw [add_mul] at h2
    linarith
  rw [hsum] at hlt
  linarith

/-- Helper: when every active share meets the floor, the final shares sum to
the declared total and all lie at or above the floor. -/
theorem finalShares_spec (total floor : ℚ) (xs : MassDistState)
    (hok : allSharesOk total floor xs = true)
    (hu : 1 ≤ (activeWeights xs).length) :
    (finalShares total floor xs).sum = total ∧
    ∀ m ∈ finalShares total floor xs, floor ≤ m := by
  have hokm : ∀ w ∈ activeWeights xs,
      floor ≤ shareOf (remOf total floor xs) (activeWeights xs).sum
        (activeWeights xs).length w := by
    intro w hw
    have := List.all_eq_true.mp hok w hw
    simpa [shareIn] using this
  constructor
  · unfold finalShares
    rw [sum_map_split]
    have hfix : (xs.filter (fun p => p.1)).map
        (fun p => if p.1 then floor else shareIn total floor xs p)
        = List.replicate (numFixed xs) floor := by
      rw [List.map_congr_left (g := fun _ => floor)
        (fun p hp => if_pos ((List.mem_filter.mp hp).2))]
      exact List.map_const' _ _
    have hact : (xs.filter (fun p => !p.1)).map
        (fun p => if p.1 then floor else shareIn total floor xs p)
        = (activeWeights xs).map
            (shareOf (remOf total floor xs) (activeWeights xs).sum
              (activeWeights xs).length) := by
      unfold activeWeights
      rw [List.map_map]
      refine List.map_congr_left (fun p hp => ?_)
      have hpf : p.1 = false := by
        simpa using (List.mem_filter.mp hp).2
      rw [if_neg (by simp [hpf])]
      rfl
    rw [hfix, hact, List.sum_replicate, nsmul_eq_mul, sum_shares _ _ hu]
    unfold remOf
    ring
  · intro m hm
    unfold finalShares at hm
    rcases List.mem_map.mp hm with ⟨p, hp, rfl⟩
    by_cases h1 : p.1 = true
    · rw [if_pos h1]
    · rw [if_neg h1]
      have hpf : p.1 = false := by
        simpa using h1
      have hw : p.2 ∈ activeWeights xs := mem_activeWeights.mpr ⟨p, hp, hpf, rfl⟩
      simpa [shareIn] using hokm p.2 hw

/-- Helper: the water-filling distribution preserves the declared total and
respects the floor whenever the total covers every node's floor and the fuel
covers the active count. -/
theorem fillMasses_spec (total floor : ℚ) :
    ∀ (fuel : ℕ) (xs : MassDistState),
      (xs.length : ℚ) * floor ≤ total →
      1 ≤ (activeWeights xs).length →
      (activeWeights xs).length ≤ fuel →
      (fillMasses total floor fuel xs).sum = total ∧
      ∀ m ∈ fillMasses total floor fuel xs, floor ≤ m := by
  intro fuel
  induction fuel with
  | zero =>
      intro xs _ h2 h3
      omega
  | succ f ih =>
      intro xs h1 h2 h3
      by_cases hok : allSharesOk total floor xs = true
      · have heq : fillMasses total floor (f + 1) xs = finalShares total floor xs := by
          simp [fillMasses, hok]
        rw [heq]
        exact finalShares_spec total floor xs hok h2
      · have hstep : fillMasses total floor (f + 1) xs
            = fillMasses total floor f (clampLow total floor xs) := by
          simp [fillMasses, hok]
        rw [hstep]
        obtain ⟨p₀, hp₀mem, hp₀f, hp₀ge⟩ := exists_share_ge total floor xs h1 h2
        have hex : ∃ w ∈ activeWeights xs, shareIn total floor xs (false, w) < floor := by
          by_contra hcon
          push_neg at hcon
          exact hok (List.all_eq_true.mpr (fun w hw => decide_eq_true (hcon w hw)))
        obtain ⟨w₁, hw₁, hlt₁⟩ := hex
        obtain ⟨p₁, hp₁mem, hp₁f, hp₁snd⟩ := mem_activeWeights.mp hw₁
        have hp₁lt : shareIn total floor xs p₁ < floor := by
          simpa [shareIn, hp₁snd] using hlt₁
        refine ih (clampLow total floor xs) ?_ ?_ ?_
        · rw [clampLow_length]
          exact h1
        · rw [clampLow_activeLen]
          have hd : decide (shareIn total floor xs p₀ < floor) = false :=
            decide_eq_false (not_lt.mpr hp₀ge)
          have hpos : 0 < xs.countP
              (fun p => !p.1 && !(decide (shareIn total floor xs p < floor))) :=
            List.countP_pos_iff.mpr ⟨p₀, hp₀mem, by simp [hp₀f, hd]⟩
          omega
        · have hcnt : xs.countP
              (fun p => !p.1 && !(decide (shareIn total floor xs p < floor)))
              < xs.countP (fun p => !p.1) := by
            refine countP_lt_of_sep xs _ _
              (fun a _ hpa => by
                simp only [Bool.and_eq_true] at hpa
                exact hpa.1) p₁ hp₁mem ?_ ?_
            · simp [hp₁f]
            · simp [hp₁f, hp₁lt]
          rw [clampLow_activeLen]
          rw [activeLen_countP] at h3
          omega

/-- Helper: every node of a freshly initialized distribution state is
active, with its declared load weight. -/
theorem activeWeights_init (l : List ℚ) :
    activeWeights (l.map (fun w => (false, w))) = l := by
  induction l with
  | nil => rfl
  | cons w rest ih =>
      simpa [activeWeights, List.filter_cons] using ih

/-- C1 (amended): for a body with at least one node, whenever the declared
total mass is at least the node count times the per-node mass floor, the
per-node mass array produced by recomputing node masses sums exactly to the
declared total mass and no node's resulting mass is below the floor. -/
theorem recalculateNodeMasses_total_and_floor (ws : List ℚ) (total floor : ℚ)
    (hne : ws ≠ []) (htot : (ws.length : ℚ) * floor ≤ total) :
    (RecalculateNodeMasses ws total floor).sum = total ∧
    ∀ m ∈ RecalculateNodeMasses ws total floor, floor ≤ m := by
  unfold RecalculateNodeMasses
  refine fillMasses_spec total floor ws.length (ws.map (fun w => (false, w))) ?_ ?_ ?_
  · rw [List.length_map]
    exact htot
  · rw [activeWeights_init ws]
    have := List.length_pos.mpr hne
    omega
  · rw [activeWeights_init ws]

/-- Witness for `recalculateNodeMasses_total_and_floor`: two nodes with load
weights 1 and 3, total mass 8, floor 1 — the recomputed masses sum to 8. -/
theorem recalculateNodeMasses_total_and_floor_witness :
    (RecalculateNodeMasses [1, 3] 8 1).sum = 8 :=
  (recalculateNodeMasses_total_and_floor [1, 3] 8 1 (by simp) (by norm_num)).1

/-- C1 counterexample: with a single node of load weight 1, declared total
mass 0 and mass floor 1, the recomputed mass array is `[1]` — its sum (1)
differs from the declared total (0), so the claim as stated (for every
declared total mass and floor) is false: the floor clamp can only preserve
the total when the total covers every node's floor. -/
theorem recalculateNodeMasses_claim_counterexample :
    ¬ ((RecalculateNodeMasses [1] 0 1).sum = 0 ∧
       ∀ m ∈ RecalculateNodeMasses [1] 0 1, (1 : ℚ) ≤ m) := by
  have hval : RecalculateNodeMasses [1] 0 1 = [1] := by
    norm_num [RecalculateNodeMasses, fillMasses, allSharesOk, finalShares,
      clampLow, shareIn, shareOf, remOf, activeWeights, numFixed,
      List.filter_cons]
  rw [hval]
  rintro ⟨h, -⟩
  norm_num at h

end RoRActor
